import Mathlib

/-!
Verification of `src/clock_solver.py` (nikkahl/python_labs).

The module has two functions:

* `calculate_clock_angle(hours, minutes, seconds=0)` — validates the ranges
  of its integer arguments (raising `ValueError` naming the offending field
  and value), normalizes `hours` mod 12, computes the two hand angles,
  and returns `round(min(diff, 360 - diff), 4)` where
  `diff = abs(hour_angle - minute_angle)`.
* `run_tests_from_file(filepath)` — checks file existence, parses JSON,
  iterates the test-case records, calls the calculator, compares against
  `expected_angle` with tolerance `0.01`, prints one line per case and a
  final `passed/total` summary; `ValueError` per case is caught, but a
  `TypeError` (e.g. `0 <= None` when a required field is missing) is not.

Embedding choices:

* Python numbers are modelled by `ℚ` (for angle values) and `ℤ` (for the
  time fields).  All values computed by the program have denominators
  dividing 120, so the decimal position `x * 10000` has a fractional part
  in {0, 1/3, 2/3}: it is never exactly 1/2 and is at distance ≥ 1/3 of a
  unit in the last place from 1/2, far above double rounding error, so the
  exact-rational model returns precisely the Python float result and the
  choice of tie-breaking in `round` is immaterial.
* A value extracted from a JSON record by `case.get(...)` may be the
  Python `None` sentinel; such values are modelled by `Option ℤ` /
  `Option ℚ` with `none` for an absent field.  Comparing or subtracting
  `None` raises `TypeError`, modelled by `PyExn.typeError`.
* The filesystem is a map `String → FileContent`; console output and log
  lines are modelled as a list of `Out` events; an exception escaping
  `run_tests_from_file` is the `Option PyExn` component of its result.
-/

/-- The argument fields validated by `calculate_clock_angle`. -/
inductive ArgField : Type
  | hours
  | minutes
  | seconds
deriving DecidableEq, Repr

/-- A Python exception as observable by the fixture runner:
`ValueError` carries the offending field and value (from the f-string
message `"... must be between ... got {value}"`);
`TypeError` is raised by `0 <= None` or `actual - None`. -/
inductive PyExn : Type
  | valueError (field : ArgField) (value : ℤ)
  | typeError
deriving DecidableEq, Repr

deriving instance DecidableEq for Except

/-- Round-half-to-even to the nearest integer (Python `round` semantics on
exactly representable values). -/
def roundHalfEven (q : ℚ) : ℤ :=
  let f := ⌊q⌋
  let r := q - f
  if r < 1/2 then f
  else if 1/2 < r then f + 1
  else if f % 2 = 0 then f else f + 1

/-- Python `round(x, 4)`: round to 4 decimal places, ties to even. -/
def roundTo4 (q : ℚ) : ℚ := (roundHalfEven (q * 10000) : ℚ) / 10000

/-- Lines 48–50 of the source: from the two hand positions,
`diff = abs(hour_angle - minute_angle)` and
`final_angle = min(diff, 360 - diff)`. -/
def final_angle (hour_angle minute_angle : ℚ) : ℚ :=
  let diff := |hour_angle - minute_angle|
  min diff (360 - diff)

/-- Function `calculate_clock_angle(hours, minutes, seconds)` from
`src/clock_solver.py` lines 17–52, under Python dynamic typing: each
argument may be `None` (modelled `none`), in which case the first range
check `0 <= arg` that touches it raises `TypeError`.  Range violations
raise `ValueError` naming the field and the received value.  The checks
run in source order: hours, then minutes, then seconds. -/
def calculate_clock_angle (hours minutes seconds : Option ℤ) : Except PyExn ℚ :=
  match hours with
  | none => .error .typeError
  | some h =>
    if ¬(0 ≤ h ∧ h ≤ 23) then .error (.valueError .hours h) else
    match minutes with
    | none => .error .typeError
    | some m =>
      if ¬(0 ≤ m ∧ m ≤ 59) then .error (.valueError .minutes m) else
      match seconds with
      | none => .error .typeError
      | some s =>
        if ¬(0 ≤ s ∧ s ≤ 59) then .error (.valueError .seconds s) else
        let adjusted_hours := h % 12
        let hour_angle : ℚ := adjusted_hours * 30 + m * (1/2) + s * ((1/2)/60)
        let minute_angle : ℚ := m * 6 + s * (1/10)
        .ok (roundTo4 (final_angle hour_angle minute_angle))

/-- The claim C1 formula, written from the spec's words (not from the
source): `round(min(diff, 360 - diff), 4)` where
`diff = |(30*(hours mod 12) + 0.5*minutes + (0.5/60)*seconds)
        - (6*minutes + 0.1*seconds)|`. -/
def spec_angle (hours minutes seconds : ℤ) : ℚ :=
  let diff : ℚ :=
    |((30 * ((hours % 12 : ℤ) : ℚ) + (1/2) * minutes + ((1/2)/60) * seconds)
      - (6 * minutes + (1/10) * seconds))|
  roundTo4 (min diff (360 - diff))

/-- One record of the JSON fixture file.  `none` models an absent key:
`case.get('hours')`, `case.get('minutes')` and `case.get('expected_angle')`
then yield Python `None`, while `case.get('seconds', 0)` yields `0`. -/
structure TestCase : Type where
  hours : Option ℤ
  minutes : Option ℤ
  seconds : Option ℤ
  expected_angle : Option ℚ
deriving DecidableEq, Repr

/-- What the runner finds at a path: no file, a file that is not valid
JSON, or a JSON array of case records. -/
inductive FileContent : Type
  | absent
  | invalidJSON
  | cases (records : List TestCase)
deriving DecidableEq, Repr

/-- One console/log output event of `run_tests_from_file`:
the error-level log for a missing file (line 61) or malformed JSON
(line 68), the table header (line 72), a separator line (lines 73, 96),
a table row with its PASS/FAIL status (line 91), the per-case error line
from the `except ValueError` handler (line 94), and the final info-level
`passed/total` summary log (line 97). -/
inductive Out : Type
  | logError (filepath : String)
  | logJSONError (filepath : String)
  | header
  | sep
  | row (hours minutes : Option ℤ) (seconds : ℤ) (expected actual : ℚ) (status : Bool)
  | errLine (hours minutes : Option ℤ) (seconds : ℤ) (field : ArgField) (value : ℤ)
  | summary (passed total : ℕ)
deriving DecidableEq, Repr

/-- The body of the `for case in test_cases` loop (lines 75–94) for one
record: extract the fields, call the calculator, classify.  Returns the
printed line and whether `passed` is incremented, or the exception that
escapes the `try/except ValueError` (a `TypeError` from a `None` field). -/
def runCase (case : TestCase) : Except PyExn (Out × Bool) :=
  let h := case.hours
  let m := case.minutes
  let s := case.seconds.getD 0
  let expected := case.expected_angle
  match calculate_clock_angle h m (some s) with
  | .error (.valueError f v) => .ok (.errLine h m s f v, false)
  | .error .typeError => .error .typeError
  | .ok actual =>
    match expected with
    | none => .error .typeError
    | some e =>
      let is_correct := decide (|actual - e| < 1/100)
      .ok (.row h m s e actual is_correct, is_correct)

/-- The whole loop: output lines of the processed cases, the final value
of `passed`, and the exception, if one escaped (aborting the loop). -/
def runCases : List TestCase → ℕ → List Out × ℕ × Option PyExn
  | [], passed => ([], passed, none)
  | case :: rest, passed =>
    match runCase case with
    | .error e => ([], passed, some e)
    | .ok (o, inc) =>
      let r := runCases rest (if inc then passed + 1 else passed)
      (o :: r.1, r.2.1, r.2.2)

/-- Function `run_tests_from_file(filepath)` (lines 55–97): existence check, JSON
parse, header, loop, closing separator and summary.  The first component
is everything printed/logged, the second the exception escaping to the
caller, if any. -/
def run_tests_from_file (fs : String → FileContent) (filepath : String) :
    List Out × Option PyExn :=
  match fs filepath with
  | .absent => ([.logError filepath], none)
  | .invalidJSON => ([.logJSONError filepath], none)
  | .cases tcs =>
    let r := runCases tcs 0
    match r.2.2 with
    | some e => (.header :: .sep :: r.1, some e)
    | none => (.header :: .sep :: r.1 ++ [.sep, .summary r.2.1 tcs.length], none)

/-- Whether an output event is a table row with status PASS. -/
def isPass : Out → Bool
  | .row _ _ _ _ _ st => st
  | _ => false

/-- Number of table rows with status PASS among a list of output events. -/
def countPass (outs : List Out) : ℕ := (outs.filter isPass).length

/-- A value rounded half-to-even is at most any integer bound of the input. -/
theorem roundHalfEven_le (q : ℚ) (n : ℤ) (h : q ≤ n) : roundHalfEven q ≤ n := by
  simp only [roundHalfEven]
  have hfl : ⌊q⌋ ≤ n := by
    have := Int.floor_le_floor h
    simpa using this
  split_ifs with h1 h2 h3
  · exact hfl
  · have hq : (⌊q⌋ : ℚ) + 1/2 ≤ q := by
      have := Int.floor_le q
      linarith [not_lt.mp (by simpa using h1)]
    have : (⌊q⌋ : ℚ) < n := by linarith
    have : ⌊q⌋ < n := by exact_mod_cast this
    omega
  · exact hfl
  · have hq : (⌊q⌋ : ℚ) + 1/2 ≤ q := by
      linarith [not_lt.mp (by simpa using h1)]
    have : (⌊q⌋ : ℚ) < n := by linarith
    have : ⌊q⌋ < n := by exact_mod_cast this
    omega

/-- A value rounded half-to-even is at least any integer lower bound of the input. -/
theorem le_roundHalfEven (q : ℚ) (n : ℤ) (h : (n : ℚ) ≤ q) : n ≤ roundHalfEven q := by
  simp only [roundHalfEven]
  have hfl : n ≤ ⌊q⌋ := Int.le_floor.mpr h
  split_ifs <;> omega

/-- Rounding to four decimal places keeps a value inside an integer interval. -/
theorem roundTo4_mem (q : ℚ) (a b : ℤ) (ha : (a : ℚ) ≤ q) (hb : q ≤ b) :
    (a : ℚ) ≤ roundTo4 q ∧ roundTo4 q ≤ b := by
  unfold roundTo4
  have h1 : a * 10000 ≤ roundHalfEven (q * 10000) := by
    apply le_roundHalfEven
    push_cast
    nlinarith
  have h2 : roundHalfEven (q * 10000) ≤ b * 10000 := by
    apply roundHalfEven_le
    push_cast
    nlinarith
  constructor
  · rw [le_div_iff₀ (by norm_num : (0:ℚ) < 10000)]
    exact_mod_cast h1
  · rw [div_le_iff₀ (by norm_num : (0:ℚ) < 10000)]
    exact_mod_cast h2

/-- When the two hand positions are within 360° of each other, the smaller
arc `min diff (360 - diff)` lies in `[0, 180]`. -/
theorem final_angle_mem (a b : ℚ) (h : |a - b| ≤ 360) :
    0 ≤ final_angle a b ∧ final_angle a b ≤ 180 := by
  unfold final_angle
  constructor
  · apply le_min (abs_nonneg _)
    linarith
  · rcases le_total |a - b| 180 with h1 | h1
    · exact le_trans (min_le_left _ _) h1
    · exact le_trans (min_le_right _ _) (by linarith)

/-- Evaluation of the calculator on in-range integer arguments: all range
checks pass and the rounded smaller arc between the two hands is returned. -/
theorem calc_eval_ok (h m s : ℤ)
    (hh : 0 ≤ h ∧ h ≤ 23) (hm : 0 ≤ m ∧ m ≤ 59) (hs : 0 ≤ s ∧ s ≤ 59) :
    calculate_clock_angle (some h) (some m) (some s) =
      .ok (roundTo4 (final_angle
        (((h % 12 : ℤ) : ℚ) * 30 + (m : ℚ) * (1/2) + (s : ℚ) * ((1/2)/60))
        ((m : ℚ) * 6 + (s : ℚ) * (1/10)))) := by
  simp only [calculate_clock_angle]
  rw [if_neg (by simpa using hh), if_neg (by simpa using hm), if_neg (by simpa using hs)]

/-- Evaluation of the calculator when the hours argument is out of range:
the hours field and value are reported, later arguments are not examined. -/
theorem calc_eval_hours_err (h : ℤ) (m s : Option ℤ) (hh : ¬(0 ≤ h ∧ h ≤ 23)) :
    calculate_clock_angle (some h) m s = .error (.valueError .hours h) := by
  simp only [calculate_clock_angle]
  rw [if_pos hh]

/-- Evaluation of the calculator when minutes are the first out-of-range
argument. -/
theorem calc_eval_minutes_err (h m : ℤ) (s : Option ℤ)
    (hh : 0 ≤ h ∧ h ≤ 23) (hm : ¬(0 ≤ m ∧ m ≤ 59)) :
    calculate_clock_angle (some h) (some m) s = .error (.valueError .minutes m) := by
  simp only [calculate_clock_angle]
  rw [if_neg (by simpa using hh), if_pos hm]

/-- Evaluation of the calculator when seconds are the first out-of-range
argument. -/
theorem calc_eval_seconds_err (h m s : ℤ)
    (hh : 0 ≤ h ∧ h ≤ 23) (hm : 0 ≤ m ∧ m ≤ 59) (hs : ¬(0 ≤ s ∧ s ≤ 59)) :
    calculate_clock_angle (some h) (some m) (some s) = .error (.valueError .seconds s) := by
  simp only [calculate_clock_angle]
  rw [if_neg (by simpa using hh), if_neg (by simpa using hm), if_pos hs]

/-- With all three arguments present (no Python `None`), the calculator
never raises `TypeError`. -/
theorem calc_no_typeError (h m s : ℤ) :
    calculate_clock_angle (some h) (some m) (some s) ≠ .error .typeError := by
  simp only [calculate_clock_angle]
  split_ifs <;> simp

/-- C1: for every valid input (0 ≤ hours ≤ 23, 0 ≤ minutes ≤ 59,
0 ≤ seconds ≤ 59), `calculate_clock_angle` returns
`round(min(diff, 360 - diff), 4)` where
`diff = |(30*(hours mod 12) + 0.5*minutes + (0.5/60)*seconds) -
(6*minutes + 0.1*seconds)|`, rounded half-to-even to 4 decimal places
(`spec_angle`, written from the claim's formula). -/
theorem C1_calc_matches_spec_formula (h m s : ℤ)
    (hh0 : 0 ≤ h) (hh1 : h ≤ 23) (hm0 : 0 ≤ m) (hm1 : m ≤ 59)
    (hs0 : 0 ≤ s) (hs1 : s ≤ 59) :
    calculate_clock_angle (some h) (some m) (some s) = .ok (spec_angle h m s) := by
  rw [calc_eval_ok h m s ⟨hh0, hh1⟩ ⟨hm0, hm1⟩ ⟨hs0, hs1⟩]
  have e : (((h % 12 : ℤ) : ℚ) * 30 + (m : ℚ) * (1/2) + (s : ℚ) * ((1/2)/60))
        - ((m : ℚ) * 6 + (s : ℚ) * (1/10))
      = (30 * ((h % 12 : ℤ) : ℚ) + (1/2) * (m : ℚ) + ((1/2)/60) * (s : ℚ))
        - (6 * (m : ℚ) + (1/10) * (s : ℚ)) := by ring
  simp only [spec_angle, final_angle]
  rw [e]

/-- Witness for C1 at the concrete input 10:15:30. -/
theorem C1_calc_matches_spec_formula_witness :
    calculate_clock_angle (some 10) (some 15) (some 30) = .ok (spec_angle 10 15 30) :=
  C1_calc_matches_spec_formula 10 15 30 (by decide) (by decide) (by decide)
    (by decide) (by decide) (by decide)

/-- C2: for every valid input the returned value lies in `[0, 180]`. -/
theorem C2_result_in_0_180 (h m s : ℤ)
    (hh0 : 0 ≤ h) (hh1 : h ≤ 23) (hm0 : 0 ≤ m) (hm1 : m ≤ 59)
    (hs0 : 0 ≤ s) (hs1 : s ≤ 59) :
    ∃ q : ℚ, calculate_clock_angle (some h) (some m) (some s) = .ok q ∧
      0 ≤ q ∧ q ≤ 180 := by
  refine ⟨_, calc_eval_ok h m s ⟨hh0, hh1⟩ ⟨hm0, hm1⟩ ⟨hs0, hs1⟩, ?_⟩
  have hmod0 : (0 : ℤ) ≤ h % 12 := by omega
  have hmod1 : (h % 12 : ℤ) ≤ 11 := by omega
  have q0 : (0 : ℚ) ≤ ((h % 12 : ℤ) : ℚ) := by exact_mod_cast hmod0
  have q1 : ((h % 12 : ℤ) : ℚ) ≤ 11 := by exact_mod_cast hmod1
  have qm0 : (0 : ℚ) ≤ (m : ℚ) := by exact_mod_cast hm0
  have qm1 : (m : ℚ) ≤ 59 := by exact_mod_cast hm1
  have qs0 : (0 : ℚ) ≤ (s : ℚ) := by exact_mod_cast hs0
  have qs1 : (s : ℚ) ≤ 59 := by exact_mod_cast hs1
  have habs : |(((h % 12 : ℤ) : ℚ) * 30 + (m : ℚ) * (1/2) + (s : ℚ) * ((1/2)/60))
      - ((m : ℚ) * 6 + (s : ℚ) * (1/10))| ≤ 360 :=
    abs_le.mpr ⟨by linarith, by linarith⟩
  obtain ⟨f0, f1⟩ := final_angle_mem _ _ habs
  have hmem := roundTo4_mem _ 0 180 (by exact_mod_cast f0) (by exact_mod_cast f1)
  exact ⟨by exact_mod_cast hmem.1, by exact_mod_cast hmem.2⟩

/-- Witness for C2 at the concrete input 23:59:59. -/
theorem C2_result_in_0_180_witness :
    ∃ q : ℚ, calculate_clock_angle (some 23) (some 59) (some 59) = .ok q ∧
      0 ≤ q ∧ q ≤ 180 :=
  C2_result_in_0_180 23 59 59 (by decide) (by decide) (by decide)
    (by decide) (by decide) (by decide)

/-- C3: the five boundary and known cases: 0:00:00 ↦ 0, 12:00:00 ↦ 0,
3:00:00 ↦ 90, 6:00:00 ↦ 180, 9:00:00 ↦ 90. -/
theorem C3_known_cases :
    calculate_clock_angle (some 0) (some 0) (some 0) = .ok 0 ∧
    calculate_clock_angle (some 12) (some 0) (some 0) = .ok 0 ∧
    calculate_clock_angle (some 3) (some 0) (some 0) = .ok 90 ∧
    calculate_clock_angle (some 6) (some 0) (some 0) = .ok 180 ∧
    calculate_clock_angle (some 9) (some 0) (some 0) = .ok 90 := by
  refine ⟨?_, ?_, ?_, ?_, ?_⟩ <;>
    norm_num [calculate_clock_angle, roundTo4, roundHalfEven, final_angle,
      min_def, Int.fract, abs_of_nonneg]

/-- C4: the calculator fails with a `ValueError` naming the offending
field and value exactly when some input is out of range; in particular
hours 24, minutes 60 and seconds 60 are each rejected this way. -/
theorem C4_out_of_range_iff_valueError :
    (∀ h m s : ℤ,
      (∃ f v, calculate_clock_angle (some h) (some m) (some s) =
          .error (.valueError f v)) ↔
        ¬(0 ≤ h ∧ h ≤ 23 ∧ 0 ≤ m ∧ m ≤ 59 ∧ 0 ≤ s ∧ s ≤ 59)) ∧
    calculate_clock_angle (some 24) (some 0) (some 0) =
      .error (.valueError .hours 24) ∧
    calculate_clock_angle (some 0) (some 60) (some 0) =
      .error (.valueError .minutes 60) ∧
    calculate_clock_angle (some 0) (some 0) (some 60) =
      .error (.valueError .seconds 60) := by
  refine ⟨?_, ?_, ?_, ?_⟩
  · intro h m s
    constructor
    · rintro ⟨f, v, hfv⟩ hvalid
      rw [calc_eval_ok h m s ⟨hvalid.1, hvalid.2.1⟩ ⟨hvalid.2.2.1, hvalid.2.2.2.1⟩
        ⟨hvalid.2.2.2.2.1, hvalid.2.2.2.2.2⟩] at hfv
      simp at hfv
    · intro hinv
      by_cases hh : 0 ≤ h ∧ h ≤ 23
      · by_cases hm : 0 ≤ m ∧ m ≤ 59
        · have hs : ¬(0 ≤ s ∧ s ≤ 59) := by tauto
          exact ⟨.seconds, s, calc_eval_seconds_err h m s hh hm hs⟩
        · exact ⟨.minutes, m, calc_eval_minutes_err h m _ hh hm⟩
      · exact ⟨.hours, h, calc_eval_hours_err h _ _ hh⟩
  · exact calc_eval_hours_err 24 _ _ (by decide)
  · exact calc_eval_minutes_err 0 60 _ (by decide) (by decide)
  · exact calc_eval_seconds_err 0 0 60 (by decide) (by decide) (by decide)

/-- C9: the smaller-arc computation of lines 48–50 is symmetric in the two
hand positions: only the absolute difference of the positions matters. -/
theorem C9_final_angle_symmetric : ∀ a b : ℚ, final_angle a b = final_angle b a := by
  intro a b
  simp only [final_angle, abs_sub_comm]

/-- C10: afternoon hours are indistinguishable from morning hours: for
12 ≤ hours ≤ 23 the result equals that of hours − 12. -/
theorem C10_pm_equals_am (h m s : ℤ)
    (hh0 : 12 ≤ h) (hh1 : h ≤ 23) (hm0 : 0 ≤ m) (hm1 : m ≤ 59)
    (hs0 : 0 ≤ s) (hs1 : s ≤ 59) :
    calculate_clock_angle (some h) (some m) (some s) =
      calculate_clock_angle (some (h - 12)) (some m) (some s) := by
  rw [calc_eval_ok h m s ⟨by omega, hh1⟩ ⟨hm0, hm1⟩ ⟨hs0, hs1⟩,
    calc_eval_ok (h - 12) m s ⟨by omega, by omega⟩ ⟨hm0, hm1⟩ ⟨hs0, hs1⟩]
  have e : h % 12 = (h - 12) % 12 := by omega
  rw [e]

/-- Witness for C10 at the concrete input 15:30:00. -/
theorem C10_pm_equals_am_witness :
    calculate_clock_angle (some 15) (some 30) (some 0) =
      calculate_clock_angle (some 3) (some 30) (some 0) :=
  C10_pm_equals_am 15 30 0 (by decide) (by decide) (by decide)
    (by decide) (by decide) (by decide)

/-- Unfolding lemma: the PASS count of a cons. -/
theorem countPass_cons (o : Out) (l : List Out) :
    countPass (o :: l) = (if isPass o = true then 1 else 0) + countPass l := by
  simp only [countPass, List.filter_cons]
  split <;> simp [Nat.add_comm]

/-- When the loop body accepts a record (no escaping exception), the line
it prints is a PASS row exactly when it increments the passed counter. -/
theorem runCase_ok_isPass (c : TestCase) :
    ∀ o inc, runCase c = .ok (o, inc) → isPass o = inc := by
  simp only [runCase]
  cases hE : calculate_clock_angle c.hours c.minutes (some (c.seconds.getD 0)) with
  | error e =>
    cases e with
    | valueError f v =>
      intro o inc h
      simp only [Except.ok.injEq, Prod.mk.injEq] at h
      obtain ⟨ho, hinc⟩ := h
      subst ho; subst hinc
      rfl
    | typeError => intro o inc h; simp at h
  | ok q =>
    cases hEe : c.expected_angle with
    | none => intro o inc h; simp at h
    | some exp =>
      intro o inc h
      simp only [Except.ok.injEq, Prod.mk.injEq] at h
      obtain ⟨ho, hinc⟩ := h
      subst ho; subst hinc
      rfl

/-- When a record carries the required fields `hours`, `minutes` and
`expected_angle`, the loop body never lets an exception escape. -/
theorem runCase_isSome_ok (c : TestCase) (hh : c.hours.isSome) (hm : c.minutes.isSome)
    (he : c.expected_angle.isSome) : ∃ o inc, runCase c = .ok (o, inc) := by
  obtain ⟨hv, hh⟩ := Option.isSome_iff_exists.mp hh
  obtain ⟨mv, hm⟩ := Option.isSome_iff_exists.mp hm
  obtain ⟨ev, he⟩ := Option.isSome_iff_exists.mp he
  simp only [runCase, hh, hm, he]
  cases hE : calculate_clock_angle (some hv) (some mv) (some (c.seconds.getD 0)) with
  | error e =>
    cases e with
    | valueError f v => exact ⟨_, _, rfl⟩
    | typeError => exact absurd hE (calc_no_typeError _ _ _)
  | ok q => exact ⟨_, _, rfl⟩

/-- When every record carries the required fields, the loop finishes with
no exception and prints exactly one line per record. -/
theorem runCases_no_exn (tcs : List TestCase) (p : ℕ)
    (H : ∀ c ∈ tcs, c.hours.isSome ∧ c.minutes.isSome ∧ c.expected_angle.isSome) :
    (runCases tcs p).2.2 = none ∧ (runCases tcs p).1.length = tcs.length := by
  induction tcs generalizing p with
  | nil => simp [runCases]
  | cons c rest ih =>
    have hmem : c ∈ c :: rest := List.mem_cons_self c rest
    obtain ⟨h1, h2, h3⟩ := H c hmem
    obtain ⟨o, inc, hc⟩ := runCase_isSome_ok c h1 h2 h3
    have hrest := ih (if inc then p + 1 else p)
      (fun d hd => H d (List.mem_cons_of_mem c hd))
    simp only [runCases, hc]
    simp [hrest.1, hrest.2]

/-- When the loop finishes with no exception, the final passed counter is
the starting counter plus the number of printed PASS rows. -/
theorem runCases_passed (tcs : List TestCase) (p : ℕ)
    (H : (runCases tcs p).2.2 = none) :
    (runCases tcs p).2.1 = p + countPass (runCases tcs p).1 := by
  induction tcs generalizing p with
  | nil => simp [runCases, countPass]
  | cons c rest ih =>
    cases hc : runCase c with
    | error e => simp [runCases, hc] at H
    | ok ob =>
      obtain ⟨o, inc⟩ := ob
      have hip := runCase_ok_isPass c o inc hc
      simp only [runCases, hc] at H ⊢
      have hrest := ih (if inc then p + 1 else p) H
      rw [countPass_cons, hrest, hip]
      cases inc <;> simp
      all_goals omega

/-- C5 counterexample: a parsed file whose single record lacks the
`hours` field.  `case.get('hours')` yields `None`, the range check
`0 <= None` raises `TypeError`, which the `except ValueError` handler
does not catch: the exception escapes `run_tests_from_file` to its
caller, after the header and separator were already printed.  This
refutes the claim that the runner never raises for such files. -/
theorem C5_counterexample_missing_field_raises :
    run_tests_from_file
        (fun _ => .cases [⟨none, some 0, none, some 0⟩]) "clock_test_data.json" =
      ([Out.header, Out.sep], some PyExn.typeError) := by
  norm_num [run_tests_from_file, runCases, runCase, calculate_clock_angle]

/-- C5 (amended): for every input file all of whose case records carry the
required fields `hours`, `minutes` and `expected_angle`,
`run_tests_from_file` never raises an exception to its caller; per-case
validation errors are caught locally, printed as one distinct line in
place of a row, and processing continues: the output holds exactly one
line per record between header and trailer. -/
theorem C5_no_raise_when_fields_present (fs : String → FileContent) (path : String)
    (tcs : List TestCase) (hfs : fs path = .cases tcs)
    (H : ∀ c ∈ tcs, c.hours.isSome ∧ c.minutes.isSome ∧ c.expected_angle.isSome) :
    (run_tests_from_file fs path).2 = none ∧
      (run_tests_from_file fs path).1.length = tcs.length + 4 := by
  have h2 := runCases_no_exn tcs 0 H
  simp only [run_tests_from_file, hfs, h2.1]
  simp [h2.2]

/-- Witness for the amended C5: a file with an out-of-range record and a
valid record is processed with no escaping exception and six output
lines. -/
theorem C5_no_raise_when_fields_present_witness :
    (run_tests_from_file
        (fun _ => .cases [⟨some 24, some 0, none, some 0⟩, ⟨some 3, some 0, none, some 90⟩])
        "clock_test_data.json").2 = none ∧
      (run_tests_from_file
        (fun _ => .cases [⟨some 24, some 0, none, some 0⟩, ⟨some 3, some 0, none, some 90⟩])
        "clock_test_data.json").1.length = 2 + 4 :=
  C5_no_raise_when_fields_present _ "clock_test_data.json"
    [⟨some 24, some 0, none, some 0⟩, ⟨some 3, some 0, none, some 90⟩] rfl (by
    intro c hc
    simp only [List.mem_cons, List.mem_singleton] at hc
    rcases hc with hc | hc | hc <;> first | (subst hc; exact ⟨rfl, rfl, rfl⟩) | cases hc)

/-- C6: a case is classified PASS exactly when `|actual - expected| < 0.01`
(the printed row's status bit is the comparison's result), and a completed
run's output ends with the summary `passed/total` where `passed` counts the
PASS rows and `total` is the full record count, validation-error records
included in the denominator only. -/
theorem C6_pass_classification_and_tally :
    (∀ (c : TestCase) (oh om : Option ℤ) (sv : ℤ) (exp act : ℚ) (st inc : Bool),
      runCase c = .ok (.row oh om sv exp act st, inc) →
        (st = true ↔ |act - exp| < 1/100)) ∧
    (∀ (fs : String → FileContent) (path : String) (tcs : List TestCase),
      fs path = .cases tcs → (run_tests_from_file fs path).2 = none →
      ∃ rows : List Out,
        (run_tests_from_file fs path).1 =
          [Out.header, Out.sep] ++ rows ++
            [Out.sep, Out.summary (countPass rows) tcs.length]) := by
  constructor
  · intro c oh om sv exp act st inc h
    revert h
    simp only [runCase]
    cases hE : calculate_clock_angle c.hours c.minutes (some (c.seconds.getD 0)) with
    | error e =>
      cases e with
      | valueError f v => intro h; simp at h
      | typeError => intro h; simp at h
    | ok q =>
      cases hEe : c.expected_angle with
      | none => intro h; simp at h
      | some ev =>
        intro h
        simp only [Except.ok.injEq, Prod.mk.injEq, Out.row.injEq] at h
        obtain ⟨⟨_, _, _, he, ha, hst⟩, _⟩ := h
        subst he; subst ha; subst hst
        simp
  · intro fs path tcs hfs hnone
    simp only [run_tests_from_file, hfs] at hnone ⊢
    cases hE : (runCases tcs 0).2.2 with
    | some e => rw [hE] at hnone; simp at hnone
    | none =>
      refine ⟨(runCases tcs 0).1, ?_⟩
      have hp := runCases_passed tcs 0 hE
      simp [hE, hp]

/-- Witness for C6: the classification direction applied to a concrete
passing record, and the tally direction applied to a concrete one-record
file. -/
theorem C6_pass_classification_and_tally_witness :
    (true = true ↔ |(90 : ℚ) - 90| < 1/100) ∧
    ∃ rows : List Out,
      (run_tests_from_file (fun _ => .cases [⟨some 3, some 0, none, some 90⟩]) "f").1 =
        [Out.header, Out.sep] ++ rows ++ [Out.sep, Out.summary (countPass rows) 1] :=
  ⟨C6_pass_classification_and_tally.1 ⟨some 3, some 0, none, some 90⟩
      (some 3) (some 0) 0 90 90 true true
      (by norm_num [runCase, calculate_clock_angle, roundTo4, roundHalfEven,
        final_angle, min_def, Int.fract, abs_of_nonneg]),
    C6_pass_classification_and_tally.2 _ "f" [⟨some 3, some 0, none, some 90⟩] rfl
      (by norm_num [run_tests_from_file, runCases, runCase, calculate_clock_angle,
        roundTo4, roundHalfEven, final_angle, min_def, Int.fract, abs_of_nonneg])⟩

/-- C7: for a filepath naming no existing file, the runner emits exactly
one error-level log line naming the path, produces no table output, and
lets no exception escape. -/
theorem C7_missing_file (fs : String → FileContent) (path : String)
    (h : fs path = .absent) :
    run_tests_from_file fs path = ([Out.logError path], none) := by
  simp only [run_tests_from_file, h]

/-- Witness for C7 at a concrete missing path. -/
theorem C7_missing_file_witness :
    run_tests_from_file (fun _ => .absent) "clock_test_data.json" =
      ([Out.logError "clock_test_data.json"], none) :=
  C7_missing_file _ _ rfl

/-- C8: for an existing file whose content is not valid JSON, the runner
emits exactly one error-level log line naming the file and returns before
any case is processed: no table output, no partial results. -/
theorem C8_malformed_json (fs : String → FileContent) (path : String)
    (h : fs path = .invalidJSON) :
    run_tests_from_file fs path = ([Out.logJSONError path], none) := by
  simp only [run_tests_from_file, h]

/-- Witness for C8 at a concrete malformed file. -/
theorem C8_malformed_json_witness :
    run_tests_from_file (fun _ => .invalidJSON) "clock_test_data.json" =
      ([Out.logJSONError "clock_test_data.json"], none) :=
  C8_malformed_json _ _ rfl
